import Mathlib

/-!
Shallow embedding of the Snake-and-Ladder game logic from `src/src/App.tsx`.

The embedded parts are the board tables (`SNAKES`, `LADDERS`), the log
append (`addLog`), the turn-resolution function (`movePlayer`), the roll
guard (`rollDice`), the reset (`resetGame`) and the grid projection
(`getCoordinates`).  Rendering, colors, icons, animation and the random
id / timestamp fields of log entries are presentational and are not part
of the model; a log entry keeps its message and category tag.  The die
value drawn inside `rollDice` is passed in as a parameter, and the
transient `isRolling := true` window during the 600 ms animation is not
observable in a sequential model (the flag is set back to `false` before
`movePlayer` runs), so `rollDice roll s` is the net effect of one
accepted or rejected roll.
-/

set_option maxRecDepth 100000
set_option synthInstance.maxSize 2000

/-- Mirrors `const GRID_SIZE = 10`. -/
def GRID_SIZE : Nat := 10

/-- Mirrors `const TOTAL_SQUARES = 100`. -/
def TOTAL_SQUARES : Nat := 100

/-- Mirrors the `SNAKES` record, as an association list `start ↦ end`. -/
def SNAKES : List (Nat × Nat) :=
  [(99, 80), (95, 75), (92, 88), (89, 68), (64, 60), (49, 11), (46, 25), (16, 6)]

/-- Mirrors the `LADDERS` record, as an association list `start ↦ end`. -/
def LADDERS : List (Nat × Nat) :=
  [(2, 38), (7, 14), (8, 31), (15, 26), (21, 42), (28, 84), (36, 44),
   (51, 67), (71, 91), (78, 98), (87, 94)]

/-- JavaScript member access `m[k]` on a numeric record: the stored value,
or `undefined` when absent.  Both are used only under a truthiness test or
after such a test, so `undefined` is represented by `0` (no stored value
of either table is `0`, and `0` is exactly as falsy as `undefined`). -/
def jsGet (m : List (Nat × Nat)) (k : Nat) : Nat := (List.lookup k m).getD 0

/-- Category tag of a log entry (`GameLogEntry.type`). -/
inductive LogType where
  | move | snake | ladder | win | info
deriving DecidableEq, Repr

/-- A game-log entry: message plus category tag (random id and timestamp
are presentational and omitted). -/
structure LogEntry where
  message : String
  type : LogType
deriving DecidableEq, Repr

/-- A player: stable id, display name, current position (color and icon
are presentational and omitted). -/
structure Player where
  id : Nat
  name : String
  position : Nat
deriving DecidableEq, Repr

/-- The mutable game state held in the component's `useState` hooks. -/
structure GameState where
  players : List Player
  currentPlayerIndex : Nat
  diceValue : Option Nat
  isRolling : Bool
  gameLog : List LogEntry
  winner : Option Player
deriving DecidableEq, Repr

/-- Mirrors `addLog`: prepend the new entry and keep at most the 49 newest
previous entries (`prev.slice(0, 49)`), so the log never exceeds 50. -/
def addLog (message : String) (type : LogType) (prev : List LogEntry) : List LogEntry :=
  ⟨message, type⟩ :: prev.take 49

/-- The active player, `players[currentPlayerIndex]`. -/
def currentPlayerOf (s : GameState) : Player :=
  s.players.getD s.currentPlayerIndex ⟨0, "", 0⟩

/-- The clamped landing square of `movePlayer`: `position + steps`, reset
to the old position when it exceeds `TOTAL_SQUARES` (the overshoot rule). -/
def newPositionOf (steps : Nat) (s : GameState) : Nat :=
  if (currentPlayerOf s).position + steps > TOTAL_SQUARES then (currentPlayerOf s).position
  else (currentPlayerOf s).position + steps

/-- The snake-or-ladder check of `movePlayer` on the landing square:
`if (SNAKES[newPosition]) … else if (LADDERS[newPosition]) …`, returning
the final position together with the transition tag (`transitionType`). -/
def applyTransition (newPosition : Nat) : Nat × Option LogType :=
  if jsGet SNAKES newPosition ≠ 0 then (jsGet SNAKES newPosition, some LogType.snake)
  else if jsGet LADDERS newPosition ≠ 0 then (jsGet LADDERS newPosition, some LogType.ladder)
  else (newPosition, none)

/-- The final position a resolution of `steps` assigns to the active player. -/
def finalPositionOf (steps : Nat) (s : GameState) : Nat :=
  (applyTransition (newPositionOf steps s)).1

/-- Mirrors `movePlayer(steps)`: announce the roll, reject an overshoot
(with an info entry), apply the snake/ladder transition (with its entry),
write the final position back to the active player, then either declare
the winner (position 100, win entry, no turn advance) or advance the
turn index modulo the player count. -/
def movePlayer (steps : Nat) (s : GameState) : GameState :=
  let currentPlayer := currentPlayerOf s
  let newPosition := newPositionOf steps s
  let finalPosition := (applyTransition newPosition).1
  let transitionType := (applyTransition newPosition).2
  let log₁ := addLog (currentPlayer.name ++ " rolled a " ++ toString steps ++ ".")
    LogType.move s.gameLog
  let log₂ :=
    if currentPlayer.position + steps > TOTAL_SQUARES then
      addLog (currentPlayer.name ++ " needs exactly " ++
        toString (TOTAL_SQUARES - currentPlayer.position) ++ " to win.") LogType.info log₁
    else log₁
  let players' := s.players.mapIdx fun i p =>
    if i = s.currentPlayerIndex then { p with position := finalPosition } else p
  let log₃ :=
    match transitionType with
    | some LogType.snake =>
        addLog ("Oh no! " ++ currentPlayer.name ++ " hit a snake at " ++
          toString newPosition ++ " and fell to " ++ toString finalPosition ++ "!")
          LogType.snake log₂
    | some LogType.ladder =>
        addLog ("Great! " ++ currentPlayer.name ++ " climbed a ladder at " ++
          toString newPosition ++ " to " ++ toString finalPosition ++ "!")
          LogType.ladder log₂
    | _ => log₂
  if finalPosition = TOTAL_SQUARES then
    { s with players := players',
             gameLog := addLog ("🎉 " ++ currentPlayer.name ++ " wins the game!")
               LogType.win log₃,
             winner := some currentPlayer }
  else
    { s with players := players',
             gameLog := log₃,
             currentPlayerIndex := (s.currentPlayerIndex + 1) % s.players.length }

/-- Mirrors `rollDice` with the drawn die value `roll` as a parameter: a
no-op while `isRolling` or once a winner exists; otherwise records the die
value and resolves the move (the transient `isRolling := true` window is
closed again before `movePlayer` runs). -/
def rollDice (roll : Nat) (s : GameState) : GameState :=
  if s.isRolling || s.winner.isSome then s
  else movePlayer roll { s with diceValue := some roll, isRolling := false }

/-- Mirrors `resetGame`: every player back to square 1, index 0, dice and
winner cleared, log replaced by the single seeded info entry. -/
def resetGame (s : GameState) : GameState :=
  { s with players := s.players.map fun p => { p with position := 1 },
           currentPlayerIndex := 0,
           diceValue := none,
           winner := none,
           gameLog := addLog "Game reset! Player 1 goes first." LogType.info [] }

/-- The initial component state, after the mount effect has seeded the
"Game started" log entry. -/
def initState : GameState :=
  { players := [⟨1, "Player 1", 1⟩, ⟨2, "Player 2", 1⟩],
    currentPlayerIndex := 0,
    diceValue := none,
    isRolling := false,
    gameLog := addLog "Game started! Player 1 goes first." LogType.info [],
    winner := none }

/-- Mirrors `getCoordinates`: project a square number onto the 10×10
boustrophedon grid, returning `(x, y)`. -/
def getCoordinates (square : Nat) : Nat × Nat :=
  let zeroIndexed := square - 1
  let row := zeroIndexed / GRID_SIZE
  let col := zeroIndexed % GRID_SIZE
  let x := if row % 2 = 0 then col else (GRID_SIZE - 1) - col
  let y := (GRID_SIZE - 1) - row
  (x, y)

/-- The states reachable by the UI actions: the initial state, a roll of a
die value in `[1,6]`, and a reset, in any sequence. -/
inductive Reachable : GameState → Prop where
  | init : Reachable initState
  | roll {s : GameState} (r : Nat) : Reachable s → 1 ≤ r → r ≤ 6 → Reachable (rollDice r s)
  | reset {s : GameState} : Reachable s → Reachable (resetGame s)

/-- Position invariant: in `[1,100]` and a source square of neither table. -/
def goodPos (n : Nat) : Prop :=
  1 ≤ n ∧ n ≤ 100 ∧ List.lookup n SNAKES = none ∧ List.lookup n LADDERS = none

instance : DecidablePred goodPos := fun _ => by unfold goodPos; infer_instance

/-- State invariant maintained by every reachable state: two players, a
valid turn index, every position good, and no position at 100 before a
winner is declared. -/
def GoodState (s : GameState) : Prop :=
  s.players.length = 2 ∧
  s.currentPlayerIndex < s.players.length ∧
  (∀ p ∈ s.players, goodPos p.position) ∧
  (s.winner = none → ∀ p ∈ s.players, p.position ≤ 99)

/-! ### Helper lemmas -/

lemma mapIdx_id_players (l : List Player) : (l.mapIdx fun _ p => p) = l := by
  induction l with
  | nil => rfl
  | cons a as ih => rw [List.mapIdx_cons]; exact congrArg (a :: ·) ih

lemma mapIdx_update_id (l : List Player) (idx : Nat) (v : Nat)
    (h : (l.getD idx ⟨0, "", 0⟩).position = v) :
    (l.mapIdx fun i p => if i = idx then { p with position := v } else p) = l := by
  induction l generalizing idx with
  | nil => rfl
  | cons a as ih =>
    rw [List.mapIdx_cons]
    cases idx with
    | zero =>
      have ha : a.position = v := h
      subst ha
      have htail : (fun (i : Nat) (p : Player) =>
          if i + 1 = 0 then { p with position := a.position } else p) =
          fun (_ : Nat) (p : Player) => p := by
        funext i p
        simp
      rw [htail, mapIdx_id_players]
      simp
    | succ j =>
      have hhead : (if (0 : Nat) = j + 1 then { a with position := v } else a) = a := by
        simp
      have htail : (fun (i : Nat) (p : Player) =>
          if i + 1 = j + 1 then { p with position := v } else p) =
          fun (i : Nat) (p : Player) => if i = j then { p with position := v } else p := by
        funext i p
        simp
      rw [hhead, htail, ih j h]

lemma applyTransition_of_good {n : Nat} (h : goodPos n) : applyTransition n = (n, none) := by
  obtain ⟨-, -, hs, hl⟩ := h
  simp [applyTransition, jsGet, hs, hl]

lemma trans_good : ∀ t : Nat, t ≤ 100 → 1 ≤ t →
    goodPos (applyTransition t).1 ∧
    ((applyTransition t).2 ≠ none → (applyTransition t).1 ≠ 100) := by decide

lemma rollDice_noop {s : GameState} (h : s.isRolling = true ∨ s.winner.isSome = true)
    (r : Nat) : rollDice r s = s := by
  unfold rollDice
  rcases h with h | h <;> simp [h]

lemma foldl_rollDice_noop {s : GameState} (hw : s.winner.isSome = true) (rolls : List Nat) :
    rolls.foldl (fun st r => rollDice r st) s = s := by
  induction rolls with
  | nil => rfl
  | cons r rs ih =>
    rw [List.foldl_cons, rollDice_noop (Or.inr hw) r]
    exact ih

lemma movePlayer_players (steps : Nat) (s : GameState) :
    (movePlayer steps s).players =
      s.players.mapIdx fun i p =>
        if i = s.currentPlayerIndex then { p with position := finalPositionOf steps s }
        else p := by
  simp only [movePlayer, finalPositionOf]
  split <;> rfl

lemma movePlayer_winner (steps : Nat) (s : GameState) :
    (movePlayer steps s).winner =
      if finalPositionOf steps s = TOTAL_SQUARES then some (currentPlayerOf s)
      else s.winner := by
  simp only [movePlayer, finalPositionOf]
  split <;> rfl

lemma movePlayer_index (steps : Nat) (s : GameState) :
    (movePlayer steps s).currentPlayerIndex =
      if finalPositionOf steps s = TOTAL_SQUARES then s.currentPlayerIndex
      else (s.currentPlayerIndex + 1) % s.players.length := by
  simp only [movePlayer, finalPositionOf]
  split <;> rfl

lemma active_mem {s : GameState} (h : s.currentPlayerIndex < s.players.length) :
    currentPlayerOf s ∈ s.players := by
  unfold currentPlayerOf
  rw [List.getD_eq_getElem s.players _ h]
  exact List.getElem_mem h

lemma movePlayer_length (steps : Nat) (s : GameState) :
    (movePlayer steps s).players.length = s.players.length := by
  rw [movePlayer_players]
  exact List.length_mapIdx

lemma active_good {s : GameState} (h : GoodState s) : goodPos (currentPlayerOf s).position :=
  h.2.2.1 _ (active_mem h.2.1)

lemma active_le {s : GameState} (h : GoodState s) (hw : s.winner = none) :
    (currentPlayerOf s).position ≤ 99 :=
  h.2.2.2 hw _ (active_mem h.2.1)

lemma newPositionOf_bounds (steps : Nat) {s : GameState}
    (h : goodPos (currentPlayerOf s).position) :
    1 ≤ newPositionOf steps s ∧ newPositionOf steps s ≤ 100 := by
  obtain ⟨h1, h2, -, -⟩ := h
  unfold newPositionOf TOTAL_SQUARES
  split <;> omega

lemma final_good (steps : Nat) {s : GameState} (h : goodPos (currentPlayerOf s).position) :
    goodPos (finalPositionOf steps s) := by
  obtain ⟨hlo, hhi⟩ := newPositionOf_bounds steps h
  exact (trans_good _ hhi hlo).1

lemma mem_mapIdx_players {l : List Player} {f : Nat → Player → Player} {p : Player}
    (hp : p ∈ l.mapIdx f) : ∃ i, ∃ h : i < l.length, p = f i (l.get ⟨i, h⟩) := by
  obtain ⟨i, hi, hget⟩ := List.mem_iff_getElem.mp hp
  rw [List.length_mapIdx] at hi
  refine ⟨i, hi, ?_⟩
  rw [← hget]
  have := List.get_mapIdx l f i hi
  simp only [List.get_eq_getElem] at this ⊢
  exact this

lemma movePlayer_good {s : GameState} (h : GoodState s) (steps : Nat) :
    GoodState (movePlayer steps s) := by
  have hag : goodPos (currentPlayerOf s).position := active_good h
  have hfg : goodPos (finalPositionOf steps s) := final_good steps hag
  obtain ⟨hlen, hidx, hpos, hwle⟩ := h
  refine ⟨?_, ?_, ?_, ?_⟩
  · rw [movePlayer_length]; exact hlen
  · rw [movePlayer_index, movePlayer_length]
    split
    · exact hidx
    · exact Nat.mod_lt _ (by omega)
  · rw [movePlayer_players]
    intro p hp
    obtain ⟨i, hilen, rfl⟩ := mem_mapIdx_players hp
    by_cases hi : i = s.currentPlayerIndex
    · rw [if_pos hi]
      exact hfg
    · rw [if_neg hi]
      exact hpos _ (List.get_mem s.players i hilen)
  · intro hwn p hp
    rw [movePlayer_winner] at hwn
    rw [movePlayer_players] at hp
    by_cases hf : finalPositionOf steps s = TOTAL_SQUARES
    · rw [if_pos hf] at hwn
      exact absurd hwn (by simp)
    · rw [if_neg hf] at hwn
      obtain ⟨i, hilen, rfl⟩ := mem_mapIdx_players hp
      by_cases hi : i = s.currentPlayerIndex
      · rw [if_pos hi]
        show finalPositionOf steps s ≤ 99
        have h100 := hfg.2.1
        unfold TOTAL_SQUARES at hf
        omega
      · rw [if_neg hi]
        exact hwle hwn _ (List.get_mem s.players i hilen)

lemma resetGame_good {s : GameState} (h : GoodState s) : GoodState (resetGame s) := by
  obtain ⟨hlen, -, -, -⟩ := h
  unfold GoodState resetGame
  refine ⟨?_, ?_, ?_, ?_⟩
  · simpa using hlen
  · simp [hlen]
  · intro p hp
    simp only [List.mem_map] at hp
    obtain ⟨q, -, rfl⟩ := hp
    show goodPos 1
    decide
  · intro _ p hp
    simp only [List.mem_map] at hp
    obtain ⟨q, -, rfl⟩ := hp
    show (1 : Nat) ≤ 99
    omega

lemma rollDice_good {s : GameState} (h : GoodState s) (r : Nat) : GoodState (rollDice r s) := by
  unfold rollDice
  split
  · exact h
  · refine movePlayer_good ?_ r
    exact ⟨h.1, h.2.1, h.2.2.1, h.2.2.2⟩

lemma initState_good : GoodState initState := by
  unfold GoodState initState
  decide

lemma reachable_good : ∀ {s : GameState}, Reachable s → GoodState s := by
  intro s h
  induction h with
  | init => exact initState_good
  | roll r hs h1 h6 ih => exact rollDice_good ih r
  | reset _ ih => exact resetGame_good ih

lemma movePlayer_overshoot {steps : Nat} {s : GameState}
    (hg : goodPos (currentPlayerOf s).position)
    (hov : (currentPlayerOf s).position + steps > TOTAL_SQUARES) :
    newPositionOf steps s = (currentPlayerOf s).position ∧
    finalPositionOf steps s = (currentPlayerOf s).position ∧
    (movePlayer steps s).players = s.players := by
  have hnp : newPositionOf steps s = (currentPlayerOf s).position := by
    unfold newPositionOf
    rw [if_pos hov]
  have hfp : finalPositionOf steps s = (currentPlayerOf s).position := by
    unfold finalPositionOf
    rw [hnp, applyTransition_of_good hg]
  refine ⟨hnp, hfp, ?_⟩
  rw [movePlayer_players, hfp]
  exact mapIdx_update_id s.players s.currentPlayerIndex _ rfl

/-! ### Concrete states used by witnesses and counterexamples -/

/-- A state whose active player sits on the snake head 99 (not reachable
in play, but inside the range `[1,100]` quantified over by the spec). -/
def snakeHeadState : GameState :=
  { players := [⟨1, "Player 1", 99⟩, ⟨2, "Player 2", 1⟩], currentPlayerIndex := 0,
    diceValue := none, isRolling := false, gameLog := [], winner := none }

/-- A state whose active player already sits on square 100. -/
def atGoalState : GameState :=
  { players := [⟨1, "Player 1", 100⟩, ⟨2, "Player 2", 1⟩], currentPlayerIndex := 0,
    diceValue := none, isRolling := false, gameLog := [], winner := none }

/-- A state whose active player sits on square 98 (overshoots on a 5). -/
def nearGoalState : GameState :=
  { players := [⟨1, "Player 1", 98⟩, ⟨2, "Player 2", 1⟩], currentPlayerIndex := 0,
    diceValue := none, isRolling := false, gameLog := [], winner := none }

/-- A state whose active player sits on square 95 (wins exactly on a 5). -/
def winReadyState : GameState :=
  { players := [⟨1, "Player 1", 95⟩, ⟨2, "Player 2", 1⟩], currentPlayerIndex := 0,
    diceValue := none, isRolling := false, gameLog := [], winner := none }

/-- A state in the middle of the rolling animation. -/
def rollingState : GameState :=
  { players := [⟨1, "Player 1", 10⟩, ⟨2, "Player 2", 20⟩], currentPlayerIndex := 1,
    diceValue := some 4, isRolling := true, gameLog := [], winner := none }

/-- A log already at the 50-entry capacity. -/
def fullLog : List LogEntry := List.replicate 50 ⟨"entry", LogType.info⟩

/-! ### Claims -/

/-- C1 (amended): for every active-player position in `[1,99]` that is a
source square of neither table, a roll that overshoots 100 leaves every
player's position (in fact every player record) unchanged, leaves the
winner unchanged, emits an informational log entry as the newest entry,
and still advances the active-player index to the next player. -/
theorem c1_overshoot_rejected (steps : Nat) (s : GameState)
    (h1 : 1 ≤ (currentPlayerOf s).position)
    (h2 : (currentPlayerOf s).position ≤ 99)
    (h3 : List.lookup (currentPlayerOf s).position SNAKES = none)
    (h4 : List.lookup (currentPlayerOf s).position LADDERS = none)
    (hov : (currentPlayerOf s).position + steps > TOTAL_SQUARES) :
    (movePlayer steps s).players = s.players ∧
    (movePlayer steps s).winner = s.winner ∧
    (movePlayer steps s).gameLog.head?.map LogEntry.type = some LogType.info ∧
    (movePlayer steps s).currentPlayerIndex = (s.currentPlayerIndex + 1) % s.players.length := by
  have hg : goodPos (currentPlayerOf s).position := ⟨h1, by omega, h3, h4⟩
  obtain ⟨hnp, hfp, hpl⟩ := movePlayer_overshoot hg hov
  have hne : finalPositionOf steps s ≠ TOTAL_SQUARES := by
    rw [hfp]
    unfold TOTAL_SQUARES
    omega
  refine ⟨hpl, ?_, ?_, ?_⟩
  · rw [movePlayer_winner, if_neg hne]
  · have hne' : (currentPlayerOf s).position ≠ TOTAL_SQUARES := hfp ▸ hne
    simp only [movePlayer]
    rw [hnp, applyTransition_of_good hg]
    dsimp only
    rw [if_pos hov, if_neg hne']
    simp [addLog]
  · rw [movePlayer_index, if_neg hne]

/-- C1 counterexample: the claim as stated over all positions in `[1,100]`
fails.  At position 99 (a snake head) an overshooting roll of 2 moves the
player to 80, because `movePlayer` re-checks the transition tables on the
restored position; and at position 100 an overshooting roll declares a
winner and does not advance the turn index. -/
theorem c1_counterexample :
    (99 + 2 > 100 ∧
      snakeHeadState.players.map Player.position = [99, 1] ∧
      (movePlayer 2 snakeHeadState).players.map Player.position = [80, 1]) ∧
    (100 + 3 > 100 ∧
      atGoalState.winner = none ∧
      (movePlayer 3 atGoalState).winner = some ⟨1, "Player 1", 100⟩ ∧
      (movePlayer 3 atGoalState).currentPlayerIndex = atGoalState.currentPlayerIndex) := by
  decide

/-- C1 witness: the amended theorem applied at position 98 with a roll of 5. -/
theorem c1_witness :
    (movePlayer 5 nearGoalState).players = nearGoalState.players ∧
    (movePlayer 5 nearGoalState).winner = nearGoalState.winner ∧
    (movePlayer 5 nearGoalState).gameLog.head?.map LogEntry.type = some LogType.info ∧
    (movePlayer 5 nearGoalState).currentPlayerIndex =
      (nearGoalState.currentPlayerIndex + 1) % nearGoalState.players.length :=
  c1_overshoot_rejected 5 nearGoalState (by decide) (by decide) (by decide) (by decide)
    (by decide)

/-- C2 : whenever a resolution's final position is 100, the winner is set
to the active player, the newest log entry is a "win" entry, the
active-player index is not advanced, and every subsequent sequence of
`roll()` calls leaves the state unchanged (until reset). -/
theorem c2_win_freezes (steps : Nat) (s : GameState)
    (h : finalPositionOf steps s = 100) :
    (movePlayer steps s).winner = some (currentPlayerOf s) ∧
    (movePlayer steps s).gameLog.head?.map LogEntry.type = some LogType.win ∧
    (movePlayer steps s).currentPlayerIndex = s.currentPlayerIndex ∧
    ∀ rolls : List Nat,
      rolls.foldl (fun st r => rollDice r st) (movePlayer steps s) = movePlayer steps s := by
  have hT : finalPositionOf steps s = TOTAL_SQUARES := h
  refine ⟨?_, ?_, ?_, ?_⟩
  · rw [movePlayer_winner, if_pos hT]
  · have hT' : (applyTransition (newPositionOf steps s)).1 = TOTAL_SQUARES := hT
    simp only [movePlayer]
    rw [if_pos hT']
    simp [addLog]
  · rw [movePlayer_index, if_pos hT]
  · intro rolls
    apply foldl_rollDice_noop
    rw [movePlayer_winner, if_pos hT]
    rfl

/-- C2 witness: a player on square 95 rolling a 5 reaches 100 exactly. -/
theorem c2_witness :
    (movePlayer 5 winReadyState).winner = some (currentPlayerOf winReadyState) ∧
    (movePlayer 5 winReadyState).gameLog.head?.map LogEntry.type = some LogType.win ∧
    (movePlayer 5 winReadyState).currentPlayerIndex = winReadyState.currentPlayerIndex ∧
    ∀ rolls : List Nat,
      rolls.foldl (fun st r => rollDice r st) (movePlayer 5 winReadyState) =
        movePlayer 5 winReadyState :=
  c2_win_freezes 5 winReadyState (by decide)

/-- C4 : `roll()` changes nothing at all about the state while a roll is
in progress or once a winner has been declared. -/
theorem c4_roll_guard (r : Nat) (s : GameState)
    (h : s.isRolling = true ∨ s.winner.isSome = true) :
    rollDice r s = s :=
  rollDice_noop h r

/-- C4 witness: rolling during the rolling animation is a no-op. -/
theorem c4_witness : rollDice 4 rollingState = rollingState :=
  c4_roll_guard 4 rollingState (Or.inl rfl)

/-- C3 : for every landing square `t ≤ 100`, a snake head maps to its
strictly smaller table value with a snake tag (taking priority over any
ladder entry), otherwise a ladder foot maps to its table value with a
ladder tag, and otherwise the square is returned unchanged with no tag. -/
theorem c3_transition_priority (t : Nat) (ht : t ≤ 100) :
    (List.lookup t SNAKES ≠ none →
      applyTransition t = ((List.lookup t SNAKES).getD 0, some LogType.snake) ∧
      (List.lookup t SNAKES).getD 0 < t) ∧
    (List.lookup t SNAKES = none → List.lookup t LADDERS ≠ none →
      applyTransition t = ((List.lookup t LADDERS).getD 0, some LogType.ladder)) ∧
    (List.lookup t SNAKES = none → List.lookup t LADDERS = none →
      applyTransition t = (t, none)) := by
  revert t
  decide

/-- C3 witness: square 16 is a snake head and falls to 6. -/
theorem c3_witness : applyTransition 16 = (6, some LogType.snake) ∧ 6 < 16 :=
  (c3_transition_priority 16 (by decide)).1 (by decide)

lemma addLog_length_le {l : List LogEntry} (h : l.length ≤ 50) (m : String) (ty : LogType) :
    (addLog m ty l).length ≤ 50 := by
  unfold addLog
  simp only [List.length_cons, List.length_take]
  omega

/-- C5 : starting from any log of at most 50 entries, any sequence of
appends keeps the length at most 50, and an append at capacity drops
exactly the oldest (last) entry while keeping the rest newest-first. -/
theorem c5_log_bounded (entries : List (String × LogType)) (start : List LogEntry)
    (hlen : start.length ≤ 50) :
    (entries.foldl (fun lg e => addLog e.1 e.2 lg) start).length ≤ 50 ∧
    ∀ (m : String) (ty : LogType) (lg : List LogEntry), lg.length = 50 →
      addLog m ty lg = ⟨m, ty⟩ :: lg.dropLast := by
  constructor
  · induction entries generalizing start with
    | nil => exact hlen
    | cons e es ih =>
      rw [List.foldl_cons]
      exact ih _ (addLog_length_le hlen e.1 e.2)
  · intro m ty lg hl
    unfold addLog
    rw [List.dropLast_eq_take, hl]

/-- C5 witness: one append to an empty log stays within the bound, and an
append to a log at capacity evicts exactly the oldest entry. -/
theorem c5_witness :
    (([("a", LogType.move)] : List (String × LogType)).foldl
        (fun lg e => addLog e.1 e.2 lg) []).length ≤ 50 ∧
    addLog "overflow" LogType.move fullLog =
      ⟨"overflow", LogType.move⟩ :: fullLog.dropLast :=
  ⟨(c5_log_bounded [("a", LogType.move)] [] (by decide)).1,
   (c5_log_bounded [] [] (by decide)).2 "overflow" LogType.move fullLog (by decide)⟩

/-- C6 : the coordinate projection is injective on squares 1–100, lands in
the 10×10 grid, hits every cell, follows the serpentine layout (row
`(square-1)/10` counted from the bottom renders at `y = 9 - row`,
left-to-right on even rows and right-to-left on odd rows), and places
squares 1 and 100 at the corner cells `(0,9)` and `(0,0)`. -/
theorem c6_coordinates_bijection :
    ((List.range 100).map fun i => getCoordinates (i + 1)).Nodup ∧
    (∀ i : Fin 100, (getCoordinates (i.val + 1)).1 < 10 ∧ (getCoordinates (i.val + 1)).2 < 10) ∧
    (∀ x : Fin 10, ∀ y : Fin 10, ∃ i : Fin 100, getCoordinates (i.val + 1) = (x.val, y.val)) ∧
    (∀ i : Fin 100,
      getCoordinates (i.val + 1) =
        (if (i.val / 10) % 2 = 0 then i.val % 10 else 9 - i.val % 10, 9 - i.val / 10)) ∧
    getCoordinates 1 = (0, 9) ∧ getCoordinates 100 = (0, 0) := by
  refine ⟨by decide, by decide, by decide, by decide, by decide, by decide⟩

/-- C7 : every snake head and ladder foot lies in `[2,99]`, snakes go
strictly down, ladders go strictly up, and no square is a source in both
tables. -/
theorem c7_board_tables :
    (∀ e ∈ SNAKES, 2 ≤ e.1 ∧ e.1 ≤ 99 ∧ e.2 < e.1) ∧
    (∀ e ∈ LADDERS, 2 ≤ e.1 ∧ e.1 ≤ 99 ∧ e.1 < e.2) ∧
    (∀ e ∈ SNAKES, ∀ l ∈ LADDERS, e.1 ≠ l.1) := by
  decide

/-- C7 witness: the snake 99 ↦ 80 instantiates the source-range and
strict-descent facts. -/
theorem c7_witness : 2 ≤ 99 ∧ 99 ≤ 99 ∧ 80 < 99 :=
  c7_board_tables.1 (99, 80) (by decide)

/-- C8 : after a reset from any state, every player is back on square 1,
winner and dice value are cleared, the turn index is 0, and the log holds
exactly the single seeded info entry. -/
theorem c8_reset (s : GameState) :
    ((resetGame s).players.all fun p => p.position == 1) = true ∧
    (resetGame s).winner = none ∧
    (resetGame s).diceValue = none ∧
    (resetGame s).currentPlayerIndex = 0 ∧
    (resetGame s).gameLog = [⟨"Game reset! Player 1 goes first.", LogType.info⟩] := by
  refine ⟨?_, rfl, rfl, rfl, rfl⟩
  unfold resetGame
  simp [List.all_eq_true]

/-- C9 : a resolution performed from any reachable state that still
accepts rolls (no winner yet) appends exactly one "move" entry, plus at
most one further entry that is a snake, ladder, win, or info entry. -/
theorem c9_resolution_log (steps : Nat) (s : GameState) (h : Reachable s)
    (hw : s.winner = none) :
    (∃ m₁, (movePlayer steps s).gameLog = addLog m₁ LogType.move s.gameLog) ∨
    (∃ m₁ m₂ t₂,
      (t₂ = LogType.snake ∨ t₂ = LogType.ladder ∨ t₂ = LogType.win ∨ t₂ = LogType.info) ∧
      (movePlayer steps s).gameLog =
        addLog m₂ t₂ (addLog m₁ LogType.move s.gameLog)) := by
  have hg := reachable_good h
  have hag : goodPos (currentPlayerOf s).position := active_good hg
  have hle : (currentPlayerOf s).position ≤ 99 := active_le hg hw
  by_cases hov : (currentPlayerOf s).position + steps > TOTAL_SQUARES
  · obtain ⟨hnp, hfp, -⟩ := movePlayer_overshoot hag hov
    have hne : (currentPlayerOf s).position ≠ TOTAL_SQUARES := by
      unfold TOTAL_SQUARES
      omega
    right
    refine ⟨(currentPlayerOf s).name ++ " rolled a " ++ toString steps ++ ".",
      (currentPlayerOf s).name ++ " needs exactly " ++
        toString (TOTAL_SQUARES - (currentPlayerOf s).position) ++ " to win.",
      LogType.info, by tauto, ?_⟩
    simp only [movePlayer]
    rw [hnp, applyTransition_of_good hag]
    dsimp only
    rw [if_pos hov, if_neg hne]
  · have hnp : newPositionOf steps s = (currentPlayerOf s).position + steps := by
      unfold newPositionOf
      rw [if_neg hov]
    have ht1 : 1 ≤ (currentPlayerOf s).position + steps := by
      have := hag.1
      omega
    have ht100 : (currentPlayerOf s).position + steps ≤ 100 := by
      unfold TOTAL_SQUARES at hov
      omega
    by_cases hs : jsGet SNAKES ((currentPlayerOf s).position + steps) = 0
    · by_cases hl : jsGet LADDERS ((currentPlayerOf s).position + steps) = 0
      · have hap : applyTransition ((currentPlayerOf s).position + steps) =
            ((currentPlayerOf s).position + steps, none) := by
          unfold applyTransition
          rw [if_neg (not_not_intro hs), if_neg (not_not_intro hl)]
        by_cases hwin : (currentPlayerOf s).position + steps = TOTAL_SQUARES
        · right
          refine ⟨(currentPlayerOf s).name ++ " rolled a " ++ toString steps ++ ".",
            "🎉 " ++ (currentPlayerOf s).name ++ " wins the game!",
            LogType.win, by tauto, ?_⟩
          simp only [movePlayer]
          rw [hnp, hap]
          dsimp only
          rw [if_neg hov, if_pos hwin]
        · left
          refine ⟨(currentPlayerOf s).name ++ " rolled a " ++ toString steps ++ ".", ?_⟩
          simp only [movePlayer]
          rw [hnp, hap]
          dsimp only
          rw [if_neg hov, if_neg hwin]
      · have hap : applyTransition ((currentPlayerOf s).position + steps) =
            (jsGet LADDERS ((currentPlayerOf s).position + steps), some LogType.ladder) := by
          unfold applyTransition
          rw [if_neg (not_not_intro hs), if_pos hl]
        have hdne : jsGet LADDERS ((currentPlayerOf s).position + steps) ≠ TOTAL_SQUARES := by
          have hd := (trans_good _ ht100 ht1).2
          rw [hap] at hd
          exact hd (by simp)
        right
        refine ⟨(currentPlayerOf s).name ++ " rolled a " ++ toString steps ++ ".",
          "Great! " ++ (currentPlayerOf s).name ++ " climbed a ladder at " ++
            toString ((currentPlayerOf s).position + steps) ++ " to " ++
            toString (jsGet LADDERS ((currentPlayerOf s).position + steps)) ++ "!",
          LogType.ladder, by tauto, ?_⟩
        simp only [movePlayer]
        rw [hnp, hap]
        dsimp only
        rw [if_neg hov, if_neg hdne]
    · have hap : applyTransition ((currentPlayerOf s).position + steps) =
          (jsGet SNAKES ((currentPlayerOf s).position + steps), some LogType.snake) := by
        unfold applyTransition
        rw [if_pos hs]
      have hdne : jsGet SNAKES ((currentPlayerOf s).position + steps) ≠ TOTAL_SQUARES := by
        have hd := (trans_good _ ht100 ht1).2
        rw [hap] at hd
        exact hd (by simp)
      right
      refine ⟨(currentPlayerOf s).name ++ " rolled a " ++ toString steps ++ ".",
        "Oh no! " ++ (currentPlayerOf s).name ++ " hit a snake at " ++
          toString ((currentPlayerOf s).position + steps) ++ " and fell to " ++
          toString (jsGet SNAKES ((currentPlayerOf s).position + steps)) ++ "!",
        LogType.snake, by tauto, ?_⟩
      simp only [movePlayer]
      rw [hnp, hap]
      dsimp only
      rw [if_neg hov, if_neg hdne]

/-- C9 witness: a roll of 3 from the initial state resolves, appending a
move entry possibly followed by one tagged entry. -/
theorem c9_witness :
    (∃ m₁, (movePlayer 3 initState).gameLog = addLog m₁ LogType.move initState.gameLog) ∨
    (∃ m₁ m₂ t₂,
      (t₂ = LogType.snake ∨ t₂ = LogType.ladder ∨ t₂ = LogType.win ∨ t₂ = LogType.info) ∧
      (movePlayer 3 initState).gameLog =
        addLog m₂ t₂ (addLog m₁ LogType.move initState.gameLog)) :=
  c9_resolution_log 3 initState Reachable.init rfl

/-- C10 : in every reachable state each player's position lies in
`[1,100]` and is a source square of neither table, so the re-check of the
transition tables that `movePlayer` performs on the restored position
after an overshoot can never move any player. -/
theorem c10_reachable_positions (s : GameState) (h : Reachable s) :
    (∀ p ∈ s.players, 1 ≤ p.position ∧ p.position ≤ 100 ∧
        List.lookup p.position SNAKES = none ∧ List.lookup p.position LADDERS = none) ∧
    ∀ steps : Nat, (currentPlayerOf s).position + steps > TOTAL_SQUARES →
      (movePlayer steps s).players = s.players := by
  have hg := reachable_good h
  exact ⟨fun p hp => hg.2.2.1 p hp,
         fun steps hov => (movePlayer_overshoot (active_good hg) hov).2.2⟩

/-- C10 witness: the invariant instantiated at the initial state. -/
theorem c10_witness :
    (∀ p ∈ initState.players, 1 ≤ p.position ∧ p.position ≤ 100 ∧
        List.lookup p.position SNAKES = none ∧ List.lookup p.position LADDERS = none) ∧
    ∀ steps : Nat, (currentPlayerOf initState).position + steps > TOTAL_SQUARES →
      (movePlayer steps initState).players = initState.players :=
  c10_reachable_positions initState Reachable.init
